import Mathlib

/-!
Verification development for the YOLOv7 MindSpore training script
(`train.py`).  The definitions below are a shallow embedding of the
training-loop state machine of `train.py`: gradient tensors are modelled as
lists of rational magnitudes carrying a finiteness flag (a NaN/Inf element
is a value whose flag is `false`), the loss-scale manager, the gradient
accumulator and the EMA bookkeeping are explicit state, and the per-batch
control flow of the `for` loop (train.py lines 195-306) is translated
branch by branch.
-/

namespace YoloTrain

/-- One gradient element: a rational magnitude together with a finiteness
flag.  A NaN/Inf produced by a float computation is modelled by
`finite := false`; arithmetic propagates non-finiteness. -/
structure GVal where
  val : ℚ
  finite : Bool
deriving DecidableEq, Repr

/-- Elementwise gradient addition (`accumulate_grads[gi] += grads[gi]`,
train.py line 249); adding a non-finite value gives a non-finite value. -/
def gadd (a b : GVal) : GVal :=
  ⟨a.val + b.val, a.finite && b.finite⟩

/-- `all_finite(grads)` (utils.all_finite, used at train.py line 387): the
whole step is finite iff every gradient element is finite. -/
def all_finite (gs : List GVal) : Bool :=
  gs.all (·.finite)

/-- Divide every gradient element by the current scale factor
(`loss_scaler.unscale(grads)`, train.py line 386). -/
def unscale (scale : ℚ) (gs : List GVal) : List GVal :=
  gs.map fun g => ⟨g.val / scale, g.finite⟩

/-- Modelled from the spec: `mindspore.amp.DynamicLossScaler` is framework
code not present in this repository; spec section 4.1 describes it: the
scale starts at a large power of two, a hit counter increments on every
finite step, after `scale_window` consecutive finite steps the scale is
multiplied by `scale_factor`, and on a non-finite step the scale is divided
by `scale_factor` (floored at 1, the scale floor) and the counter resets. -/
structure DynamicLossScaler where
  scale_value : ℚ
  scale_factor : ℚ
  scale_window : ℕ
  counter : ℕ
deriving DecidableEq, Repr

/-- Modelled from the spec: one `adjust(grads_finite)` call of the dynamic
loss scaler (spec section 4.1; invoked at train.py lines 237 and 243). -/
def DynamicLossScaler.adjust (s : DynamicLossScaler) (grads_finite : Bool) :
    DynamicLossScaler :=
  if grads_finite then
    if s.counter + 1 = s.scale_window then
      { s with scale_value := s.scale_value * s.scale_factor, counter := 0 }
    else
      { s with counter := s.counter + 1 }
  else
    { s with scale_value := max 1 (s.scale_value / s.scale_factor), counter := 0 }

/-- `DynamicLossScaler(2 ** 12, 2, 1000)` (train.py line 169). -/
def initDynamicLossScaler : DynamicLossScaler :=
  { scale_value := 2 ^ 12, scale_factor := 2, scale_window := 1000, counter := 0 }

/-- The loop's loss scaler (train.py lines 167-176): dynamic, or static with
a fixed value (`StaticLossScaler.adjust` is a no-op). -/
inductive LossScaler where
  | dynamic (s : DynamicLossScaler)
  | static (v : ℚ)
deriving DecidableEq, Repr

def LossScaler.adjust : LossScaler → Bool → LossScaler
  | .dynamic s, gf => .dynamic (s.adjust gf)
  | .static v, _ => .static v

def LossScaler.scale_value : LossScaler → ℚ
  | .dynamic s => s.scale_value
  | .static v => v

/-- The data closed over by the step function built by
`create_train_static_shape_fn_gradoperation` (train.py lines 346-401):
the loss multiplier `rank_size`, the `overflow_still_update` flag, the
gradient-sensitivity `sens` (used as a local static scale when no loss
scaler is supplied, lines 350-352) and the gradient reducer (identity when
`None`, lines 361-362). -/
structure StepFn where
  rank_size : ℚ
  overflow_still_update : Bool
  sens : ℚ
  reducer : List GVal → List GVal

/-- `loss *= rank_size` inside `forward_func` (train.py line 373), executed
before `grad_fn` differentiates the loss. -/
def StepFn.forwardLoss (fn : StepFn) (loss : ℚ) : ℚ :=
  loss * fn.rank_size

/-- Result of one `train_step(x, label, sizes, optimizer_update)` call
(train.py lines 379-399). -/
structure StepResult where
  grads : List GVal
  grads_finite : Bool
  optimizer_applied : Bool
  overflow_warned : Bool

/-- The body of `train_step` (train.py lines 379-399): gradients pass
through the distributed gradient reducer (line 385), are unscaled by the
current loss-scale value (line 386), the finiteness check runs on the
unscaled values (line 387), and when `optimizer_update` is set the
optimizer is applied iff the gradients are finite or
`overflow_still_update` is set (lines 389-397, printing an overflow
warning in the non-finite case).  `raw_grads` stands for the output of
`grad_fn` on this micro-batch. -/
def train_step (fn : StepFn) (scale : ℚ) (raw_grads : List GVal)
    (optimizer_update : Bool) : StepResult :=
  let grads1 := fn.reducer raw_grads
  let grads2 := unscale scale grads1
  let gf := all_finite grads2
  { grads := grads2
    grads_finite := gf
    optimizer_applied := optimizer_update && (gf || fn.overflow_still_update)
    overflow_warned := optimizer_update && !gf }

/-- Static configuration of the OOP training loop (train.py lines 230-266):
the built step function, the accumulation target `accumulate`, and whether
EMA tracking is enabled. -/
structure LoopCfg where
  fn : StepFn
  accumulate : ℕ
  ema : Bool

/-- Mutable state of the OOP training loop (train.py lines 186-266):
the shared loss scaler, counters of applied optimizer and EMA updates,
the accumulation buffer `accumulate_grads` with its counter
`accumulate_cur_step` (lines 189-190), the number of `adjust` calls made,
and the loss-scale values printed on dropped overflow steps. -/
structure LoopState where
  scaler : Option LossScaler
  optimizer_updates : ℕ
  ema_updates : ℕ
  accumulate_grads : Option (List GVal)
  accumulate_cur_step : ℕ
  adjust_calls : ℕ
  overflow_scale_logs : List ℚ

/-- The scale used by `loss_scaler.unscale` inside `train_step`: the shared
loop scaler when one exists, otherwise the local `StaticLossScaler(sens)`
built at train.py lines 350-352. -/
def scaleNow (cfg : LoopCfg) (st : LoopState) : ℚ :=
  match st.scaler with
  | some s => s.scale_value
  | none => cfg.fn.sens

/-- `if loss_scaler: loss_scaler.adjust(grads_finite)` (train.py lines
236-237 and 242-243). -/
def adjustScaler (st : LoopState) (gf : Bool) : LoopState :=
  match st.scaler with
  | some s => { st with scaler := some (s.adjust gf), adjust_calls := st.adjust_calls + 1 }
  | none => st

/-- The overflow-drop print: when a loss scaler exists its current
(post-adjust) scale value is part of the message (train.py lines 238-239
and 262-266); without a scaler the drop message carries no scale. -/
def logOverflow (st : LoopState) : LoopState :=
  match st.scaler with
  | some s => { st with overflow_scale_logs := st.overflow_scale_logs ++ [s.scale_value] }
  | none => st

/-- The accumulation branch of the loop body (train.py lines 241-266),
entered with the state already adjusted and the `train_step` result `r`:
on finite gradients the grads are summed into the buffer and the counter
increments, and when the counter hits the accumulation target the optimizer
fires, EMA updates, and buffer and counter reset (lines 244-260); on
non-finite gradients the micro-batch is dropped and the scale logged
(lines 261-266). -/
def accumBranch (cfg : LoopCfg) (st : LoopState) (r : StepResult) : LoopState :=
  if r.grads_finite then
    let new_grads :=
      match st.accumulate_grads with
      | some acc => List.zipWith gadd acc r.grads
      | none => r.grads
    let cnt := st.accumulate_cur_step + 1
    if cnt % cfg.accumulate = 0 then
      { st with optimizer_updates := st.optimizer_updates + 1
                ema_updates := st.ema_updates + (if cfg.ema then 1 else 0)
                accumulate_grads := none
                accumulate_cur_step := 0 }
    else
      { st with accumulate_grads := some new_grads, accumulate_cur_step := cnt }
  else
    logOverflow st

/-- One iteration of the OOP training loop (train.py lines 230-266).
With `accumulate == 1` (lines 232-239): `train_step` runs with
`optimizer_update=True`, then `ema.update()` runs unconditionally, then the
scaler adjusts and the overflow message is printed on a non-finite step.
Otherwise (lines 240-266): `train_step` runs with `optimizer_update=False`,
the scaler adjusts, and the accumulation branch is taken. -/
def loopStep (cfg : LoopCfg) (st : LoopState) (raw : List GVal) : LoopState :=
  if cfg.accumulate = 1 then
    let r := train_step cfg.fn (scaleNow cfg st) raw true
    let st1 := { st with
      optimizer_updates := st.optimizer_updates + (if r.optimizer_applied then 1 else 0)
      ema_updates := st.ema_updates + (if cfg.ema then 1 else 0) }
    let st2 := adjustScaler st1 r.grads_finite
    if r.grads_finite then st2 else logOverflow st2
  else
    let r := train_step cfg.fn (scaleNow cfg st) raw false
    accumBranch cfg (adjustScaler st r.grads_finite) r

/-- Folding the loop body over a list of micro-batches (each given by its
raw gradients), train.py line 195. -/
def runLoop (cfg : LoopCfg) (st : LoopState) (batches : List (List GVal)) : LoopState :=
  batches.foldl (loopStep cfg) st

/-- Whether a micro-batch counts as finite: the finiteness check applied to
its reduced gradients (unscaling preserves the flags, see
`all_finite_unscale`). -/
def batchFinite (cfg : LoopCfg) (raw : List GVal) : Bool :=
  all_finite (cfg.fn.reducer raw)

/-- Number of finite micro-batches in a run. -/
def finiteCount (cfg : LoopCfg) (batches : List (List GVal)) : ℕ :=
  batches.countP (batchFinite cfg)

/-- The EMA bookkeeping of the StaticCell branch of the loop (train.py
lines 223-229): on an overflowed step only the drop message is printed,
otherwise `ema.update()` runs when EMA is enabled. -/
def staticCellLoopStep (use_ema : Bool) (ema_updates : ℕ) (overflow : Bool) : ℕ :=
  if overflow then ema_updates
  else ema_updates + (if use_ema then 1 else 0)

/-- The command-line/configuration object fields of `opt` used by the
modelled parts of `train` (config.args is outside this file; only the
fields read by train.py lines 128-266 and 404-434 appear). -/
structure Opt where
  optimizer : String
  ms_strategy : String
  ms_loss_scaler : String
  ms_loss_scaler_value : ℚ
  ms_grad_sens : ℚ
  overflow_still_update : Bool
  is_distributed : Bool
  rank_size : ℕ
  total_batch_size : ℕ
  ema : Bool
  multi_scale : Bool
  imgsz : ℕ

/-- `create_train_static_shape_fn_gradoperation(model, optimizer,
loss_scaler, grad_reducer, rank_size=8, amp_level="O0",
overflow_still_update=False, sens=1.0)` (train.py lines 346-362), reduced
to the data the step function closes over.  `model`, `optimizer` and
`amp_level` play no role in the modelled behaviour and are omitted. -/
def create_train_static_shape_fn_gradoperation
    (loss_scaler : Option LossScaler) (grad_reducer : Option (List GVal → List GVal))
    (rank_size : ℚ := 8) (overflow_still_update : Bool := false) (sens : ℚ := 1) :
    StepFn :=
  { rank_size := rank_size
    overflow_still_update := overflow_still_update
    sens := sens
    reducer := grad_reducer.getD id }

/-- The call at train.py lines 179-182:
`train_step = create_train_static_shape_fn_gradoperation(model, optimizer,
loss_scaler, grad_reducer, amp_level=..., overflow_still_update=...,
sens=...)`.  The call passes no `rank_size`, so the Python default `8`
applies; `opt.rank_size` is not forwarded. -/
def buildTrainStepFn (opt : Opt) (loss_scaler : Option LossScaler)
    (grad_reducer : Option (List GVal → List GVal)) : StepFn :=
  create_train_static_shape_fn_gradoperation loss_scaler grad_reducer 8
    opt.overflow_still_update opt.ms_grad_sens

/-- The optimizer dispatch at train.py lines 129-141: `sgd`, `momentum` and
`adam` are constructed; `thor` and every other name raise
`NotImplementedError` before the training loop starts. -/
def buildOptimizer (name : String) : Except String String :=
  if name = "sgd" then .ok "SGD"
  else if name = "momentum" then .ok "Momentum"
  else if name = "adam" then .ok "Adam"
  else .error "NotImplementedError"

/-- The strategy dispatch at train.py lines 155-184: `StaticCell` and
`StaticShape` build a step function; every other `ms_strategy` raises
`NotImplementedError` before the training loop starts. -/
def buildTrainFn (strategy : String) : Except String String :=
  if strategy = "StaticCell" then .ok "create_train_static_shape_cell"
  else if strategy = "StaticShape" then .ok "create_train_static_shape_fn_gradoperation"
  else .error "NotImplementedError"

/-- Round to the nearest integer, ties to even, of the fraction `p / q`
(`q > 0`): the rounding used by Python's `round` (train.py line 113) and
`numpy.round` (train.py line 198), in exact integer arithmetic. -/
def roundHalfEvenFrac (p q : ℤ) : ℤ :=
  let f := Int.ediv p q
  let r2 := 2 * (p - f * q)
  if r2 < q then f
  else if q < r2 then f + 1
  else if f % 2 = 0 then f else f + 1

/-- `nbs = 64`, the nominal batch size (train.py line 112). -/
def nbs : ℕ := 64

/-- `accumulate = max(round(nbs / total_batch_size), 1)` (train.py
line 113). -/
def initAccumulate (total : ℕ) : ℕ :=
  max (roundHalfEvenFrac nbs total).toNat 1

/-- `np.interp(i, [0, warmup_steps], [1, nbs / total_batch_size]).round()`
(train.py line 198) in exact arithmetic: for `i < W` the interpolated value
is `1 + i * (nbs / total - 1) / W = (W * total + i * (nbs - total)) / (W * total)`. -/
def warmupAccumulate (i W total : ℕ) : ℕ :=
  max 1 (roundHalfEvenFrac ((W : ℤ) * total + i * ((nbs : ℤ) - total)) ((W : ℤ) * total)).toNat

/-- Outcome of a prefix of the StaticCell training loop: how many
train-step invocations completed, and the index of the micro-batch at
which the `assert accumulate == 1` (train.py lines 219-220) aborted the
run, if any. -/
structure CellRun where
  executed_steps : ℕ
  failed_at : Option ℕ
deriving DecidableEq, Repr

/-- The StaticCell branch of the training loop (train.py lines 195-229)
restricted to the effects relevant to the accumulate assertion: at each
micro-batch `i`, during warmup (`i < warmup_steps`, line 196) the
`accumulate` variable is recomputed by interpolation (line 198); then the
assertion `accumulate == 1` (lines 219-220) runs before this micro-batch's
`train_step` call; if it holds the step executes and the loop continues.
`fuel` bounds the number of micro-batches simulated. -/
def staticCellSim (total W : ℕ) : ℕ → ℕ → ℕ → CellRun
  | _acc, _i, 0 => { executed_steps := 0, failed_at := none }
  | acc, i, fuel + 1 =>
    let acc1 := if i < W then warmupAccumulate i W total else acc
    if acc1 = 1 then
      let r := staticCellSim total W acc1 (i + 1) fuel
      { executed_steps := r.executed_steps + 1, failed_at := r.failed_at }
    else
      { executed_steps := 0, failed_at := some i }

/-- Run the StaticCell loop model from micro-batch 0 with the setup-time
accumulate value of train.py line 113. -/
def runStaticCell (total W steps : ℕ) : CellRun :=
  staticCellSim total W (initAccumulate total) 0 steps

/-- The EMA tracker state relevant to checkpoint loading: the shadow
parameters (name/value pairs) and the `updates` counter (network.common is
outside this file; only the fields train.py lines 75-86 touch appear). -/
structure EmaState where
  weights : List (String × ℚ)
  updates : ℚ
deriving DecidableEq, Repr

/-- Value of key `k` in a checkpoint parameter dictionary. -/
def ckptLookup (k : String) (d : List (String × ℚ)) : Option ℚ :=
  (d.find? fun p => p.1 = k).map (·.2)

/-- `ms.load_param_into_net(net, param_dict)`: every network parameter
whose name appears in the checkpoint takes the checkpoint value. -/
def load_param_into_net (net ckpt : List (String × ℚ)) : List (String × ℚ) :=
  net.map fun p =>
    match ckptLookup p.1 ckpt with
    | some v => (p.1, v)
    | none => p

/-- Outcome of the EMA checkpoint branch: the updated EMA state, whether
the `"updates" miss` message was printed, and whether the final
`Ema pretrain model load ... success` message was reached. -/
structure EmaLoadResult where
  ema : EmaState
  printed_updates_missing : Bool
  printed_success : Bool
deriving DecidableEq, Repr

/-- The EMA checkpoint branch of `train` (train.py lines 76-83): the
checkpoint is loaded into the EMA model, then `ema.updates` is overwritten
only when the checkpoint has an `"updates"` entry — otherwise a message is
printed and loading still reaches the success print. -/
def loadEmaCheckpoint (ema : EmaState) (ckpt : List (String × ℚ)) : EmaLoadResult :=
  let ema1 : EmaState := { ema with weights := load_param_into_net ema.weights ckpt }
  match ckptLookup "updates" ckpt with
  | some u => { ema := { ema1 with updates := u }, printed_updates_missing := false
                printed_success := true }
  | none => { ema := ema1, printed_updates_missing := true, printed_success := true }

/-- The three framework random seeds set by `set_seed` (train.py
lines 23-26): numpy, python and the tensor framework. -/
structure Seeds where
  np : ℕ
  py : ℕ
  msf : ℕ
deriving DecidableEq, Repr

/-- `set_seed(seed=2)` (train.py lines 23-26): seeds all three generators
with the same value, defaulting to 2. -/
def set_seed (seed : ℕ := 2) : Seeds :=
  { np := seed, py := seed, msf := seed }

/-- The call `set_seed()` at train.py line 30: `train` passes no argument,
so the default seed 2 is used; no configuration field reaches it. -/
def train_set_seed : Seeds :=
  set_seed

/-- One multi-scale draw (train.py lines 211-212):
`sz = random.randrange(imgsz * 0.5, imgsz * 1.5 + gs) // gs * gs`, with the
python RNG modelled as a deterministic function `rng lo hi state` returning
the drawn value and the successor state. -/
def multiScaleSize (rng : ℕ → ℕ → ℕ → ℕ × ℕ) (imgsz gs st : ℕ) : ℕ × ℕ :=
  let lo := imgsz / 2
  let hi := imgsz * 3 / 2 + gs
  let vs := rng lo hi st
  (vs.1 / gs * gs, vs.2)

/-- The sequence of multi-scale sizes drawn over a run of `steps`
micro-batches, threading the RNG state. -/
def multiScaleSizes (rng : ℕ → ℕ → ℕ → ℕ × ℕ) (imgsz gs : ℕ) : ℕ → ℕ → List ℕ
  | 0, _ => []
  | n + 1, st =>
    let p := multiScaleSize rng imgsz gs st
    p.1 :: multiScaleSizes rng imgsz gs n p.2

/-- The multi-scale sizes a training run draws: the python RNG starts from
the state seeded by `train`'s unconditional `set_seed()` call, and the
draws depend on the image size and grid size only. -/
def trainSizes (rng : ℕ → ℕ → ℕ → ℕ × ℕ) (o : Opt) (gs steps : ℕ) : List ℕ :=
  multiScaleSizes rng o.imgsz gs steps train_set_seed.py

/-- `m` consecutive finite `adjust` calls of the dynamic loss scaler. -/
def adjustRep (s : DynamicLossScaler) : ℕ → DynamicLossScaler
  | 0 => s
  | m + 1 => (adjustRep s m).adjust true

/-- Concrete loop configuration: single device (identity reducer),
accumulation target 1, EMA enabled, overflow steps dropped. -/
def cfg1 : LoopCfg :=
  { fn := { rank_size := 8, overflow_still_update := false, sens := 1, reducer := id }
    accumulate := 1, ema := true }

/-- Concrete loop configuration: accumulation target 4, EMA enabled. -/
def cfg4 : LoopCfg :=
  { fn := { rank_size := 8, overflow_still_update := false, sens := 1, reducer := id }
    accumulate := 4, ema := true }

/-- Concrete loop configuration: accumulation target 2 with
`overflow_still_update` set. -/
def cfgAcc2osu : LoopCfg :=
  { fn := { rank_size := 8, overflow_still_update := true, sens := 1, reducer := id }
    accumulate := 2, ema := true }

/-- Fresh loop state: dynamic loss scaler as built at train.py line 169,
no updates yet, empty accumulation buffer. -/
def st0 : LoopState :=
  { scaler := some (.dynamic initDynamicLossScaler)
    optimizer_updates := 0, ema_updates := 0
    accumulate_grads := none, accumulate_cur_step := 0
    adjust_calls := 0, overflow_scale_logs := [] }

/-- Loop state three finite micro-batches into an accumulation window. -/
def st3 : LoopState :=
  { scaler := some (.dynamic initDynamicLossScaler)
    optimizer_updates := 0, ema_updates := 0
    accumulate_grads := some [⟨3, true⟩], accumulate_cur_step := 3
    adjust_calls := 3, overflow_scale_logs := [] }

/-- A micro-batch whose gradients contain a non-finite element. -/
def badBatch : List GVal := [⟨0, false⟩]

/-- A micro-batch with finite gradients. -/
def goodBatch : List GVal := [⟨1, true⟩]

/-- Eight consecutive finite micro-batches. -/
def batches8 : List (List GVal) := List.replicate 8 goodBatch

/-- A configuration for a single-device run (`rank_size = 1`). -/
def optSingle : Opt :=
  { optimizer := "sgd", ms_strategy := "StaticShape", ms_loss_scaler := "dynamic"
    ms_loss_scaler_value := 1024, ms_grad_sens := 1024
    overflow_still_update := false, is_distributed := false
    rank_size := 1, total_batch_size := 32, ema := true
    multi_scale := true, imgsz := 640 }

/-- Same run inputs as `optSingle` but a different unrelated configuration
field (`overflow_still_update`). -/
def optSingleVariant : Opt :=
  { optSingle with overflow_still_update := true }

/-- A concrete deterministic RNG standing in for the seeded python
generator. -/
def demoRng : ℕ → ℕ → ℕ → ℕ × ℕ :=
  fun lo _hi st => (lo + st % 7, st + 1)

/-- A concrete EMA state before checkpoint loading. -/
def demoEma : EmaState :=
  { weights := [("w0", 1), ("w1", 2)], updates := 5 }

/-- A concrete EMA checkpoint carrying shadow weights but no `"updates"`
entry. -/
def demoCkpt : List (String × ℚ) :=
  [("w0", 7)]

/-! ### Basic lemmas about the step function and the loop state -/

theorem all_finite_unscale (c : ℚ) (gs : List GVal) :
    all_finite (unscale c gs) = all_finite gs := by
  induction gs with
  | nil => rfl
  | cons g t ih =>
    simp only [unscale, all_finite, List.map_cons, List.all_cons] at ih ⊢
    rw [ih]

theorem train_step_grads (fn : StepFn) (scale : ℚ) (raw : List GVal) (u : Bool) :
    (train_step fn scale raw u).grads = unscale scale (fn.reducer raw) := rfl

theorem train_step_gf (fn : StepFn) (scale : ℚ) (raw : List GVal) (u : Bool) :
    (train_step fn scale raw u).grads_finite = all_finite (fn.reducer raw) := by
  simp [train_step, all_finite_unscale]

theorem train_step_applied (fn : StepFn) (scale : ℚ) (raw : List GVal) (u : Bool) :
    (train_step fn scale raw u).optimizer_applied
      = (u && (all_finite (fn.reducer raw) || fn.overflow_still_update)) := by
  simp [train_step, all_finite_unscale]

theorem train_step_warned (fn : StepFn) (scale : ℚ) (raw : List GVal) (u : Bool) :
    (train_step fn scale raw u).overflow_warned
      = (u && !all_finite (fn.reducer raw)) := by
  simp [train_step, all_finite_unscale]

@[simp] theorem adjustScaler_optimizer_updates (st : LoopState) (gf : Bool) :
    (adjustScaler st gf).optimizer_updates = st.optimizer_updates := by
  cases hs : st.scaler <;> simp [adjustScaler, hs]

@[simp] theorem adjustScaler_ema_updates (st : LoopState) (gf : Bool) :
    (adjustScaler st gf).ema_updates = st.ema_updates := by
  cases hs : st.scaler <;> simp [adjustScaler, hs]

@[simp] theorem adjustScaler_accumulate_grads (st : LoopState) (gf : Bool) :
    (adjustScaler st gf).accumulate_grads = st.accumulate_grads := by
  cases hs : st.scaler <;> simp [adjustScaler, hs]

@[simp] theorem adjustScaler_accumulate_cur_step (st : LoopState) (gf : Bool) :
    (adjustScaler st gf).accumulate_cur_step = st.accumulate_cur_step := by
  cases hs : st.scaler <;> simp [adjustScaler, hs]

@[simp] theorem adjustScaler_overflow_scale_logs (st : LoopState) (gf : Bool) :
    (adjustScaler st gf).overflow_scale_logs = st.overflow_scale_logs := by
  cases hs : st.scaler <;> simp [adjustScaler, hs]

theorem adjustScaler_scaler (st : LoopState) (gf : Bool) :
    (adjustScaler st gf).scaler = st.scaler.map (fun s => s.adjust gf) := by
  cases hs : st.scaler <;> simp [adjustScaler, hs]

theorem adjustScaler_adjust_calls (st : LoopState) (gf : Bool) :
    (adjustScaler st gf).adjust_calls
      = st.adjust_calls + (if st.scaler.isSome then 1 else 0) := by
  cases hs : st.scaler <;> simp [adjustScaler, hs]

@[simp] theorem logOverflow_optimizer_updates (st : LoopState) :
    (logOverflow st).optimizer_updates = st.optimizer_updates := by
  cases hs : st.scaler <;> simp [logOverflow, hs]

@[simp] theorem logOverflow_ema_updates (st : LoopState) :
    (logOverflow st).ema_updates = st.ema_updates := by
  cases hs : st.scaler <;> simp [logOverflow, hs]

@[simp] theorem logOverflow_accumulate_grads (st : LoopState) :
    (logOverflow st).accumulate_grads = st.accumulate_grads := by
  cases hs : st.scaler <;> simp [logOverflow, hs]

@[simp] theorem logOverflow_accumulate_cur_step (st : LoopState) :
    (logOverflow st).accumulate_cur_step = st.accumulate_cur_step := by
  cases hs : st.scaler <;> simp [logOverflow, hs]

@[simp] theorem logOverflow_adjust_calls (st : LoopState) :
    (logOverflow st).adjust_calls = st.adjust_calls := by
  cases hs : st.scaler <;> simp [logOverflow, hs]

theorem logOverflow_logs_some (st : LoopState) (s : LossScaler)
    (hs : st.scaler = some s) :
    (logOverflow st).overflow_scale_logs
      = st.overflow_scale_logs ++ [s.scale_value] := by
  simp [logOverflow, hs]

/-! ### Characterisation of one loop iteration -/

theorem loopStep_one_opt (cfg : LoopCfg) (st : LoopState) (raw : List GVal)
    (h1 : cfg.accumulate = 1) :
    (loopStep cfg st raw).optimizer_updates
      = st.optimizer_updates
          + (if batchFinite cfg raw || cfg.fn.overflow_still_update then 1 else 0) := by
  unfold loopStep
  rw [if_pos h1]
  cases hgf : (train_step cfg.fn (scaleNow cfg st) raw true).grads_finite <;>
    [have hb2 := hgf; have hb2 := hgf] <;>
    rw [train_step_gf] at hb2 <;>
    simp [hgf, hb2, train_step_applied, batchFinite]

theorem loopStep_one_ema (cfg : LoopCfg) (st : LoopState) (raw : List GVal)
    (h1 : cfg.accumulate = 1) :
    (loopStep cfg st raw).ema_updates
      = st.ema_updates + (if cfg.ema then 1 else 0) := by
  unfold loopStep
  rw [if_pos h1]
  cases hgf : (train_step cfg.fn (scaleNow cfg st) raw true).grads_finite <;>
    simp [hgf]

theorem loopStep_acc_nonfinite (cfg : LoopCfg) (st : LoopState) (raw : List GVal)
    (hk : cfg.accumulate ≠ 1) (hb : batchFinite cfg raw = false) :
    (loopStep cfg st raw).optimizer_updates = st.optimizer_updates ∧
    (loopStep cfg st raw).ema_updates = st.ema_updates ∧
    (loopStep cfg st raw).accumulate_cur_step = st.accumulate_cur_step ∧
    (loopStep cfg st raw).accumulate_grads = st.accumulate_grads := by
  unfold loopStep
  rw [if_neg hk]
  have hgf : (train_step cfg.fn (scaleNow cfg st) raw false).grads_finite = false := by
    rw [train_step_gf]; exact hb
  simp [accumBranch, hgf]

theorem loopStep_acc_nonfinite_logs (cfg : LoopCfg) (st : LoopState)
    (raw : List GVal) (s : LossScaler)
    (hk : cfg.accumulate ≠ 1) (hb : batchFinite cfg raw = false)
    (hs : st.scaler = some s) :
    (loopStep cfg st raw).overflow_scale_logs
      = st.overflow_scale_logs ++ [(s.adjust false).scale_value] := by
  unfold loopStep
  rw [if_neg hk]
  have hgf : (train_step cfg.fn (scaleNow cfg st) raw false).grads_finite = false := by
    rw [train_step_gf]; exact hb
  have hs2 : (adjustScaler st false).scaler = some (s.adjust false) := by
    rw [adjustScaler_scaler, hs]; rfl
  simp [accumBranch, hgf, logOverflow_logs_some _ _ hs2]

theorem loopStep_acc_finite_fire (cfg : LoopCfg) (st : LoopState) (raw : List GVal)
    (hk : cfg.accumulate ≠ 1) (hb : batchFinite cfg raw = true)
    (hc : (st.accumulate_cur_step + 1) % cfg.accumulate = 0) :
    (loopStep cfg st raw).optimizer_updates = st.optimizer_updates + 1 ∧
    (loopStep cfg st raw).ema_updates
      = st.ema_updates + (if cfg.ema then 1 else 0) ∧
    (loopStep cfg st raw).accumulate_cur_step = 0 ∧
    (loopStep cfg st raw).accumulate_grads = none := by
  unfold loopStep
  rw [if_neg hk]
  have hgf : (train_step cfg.fn (scaleNow cfg st) raw false).grads_finite = true := by
    rw [train_step_gf]; exact hb
  simp [accumBranch, hgf, hc]

theorem loopStep_acc_finite_nofire (cfg : LoopCfg) (st : LoopState) (raw : List GVal)
    (hk : cfg.accumulate ≠ 1) (hb : batchFinite cfg raw = true)
    (hc : (st.accumulate_cur_step + 1) % cfg.accumulate ≠ 0) :
    (loopStep cfg st raw).optimizer_updates = st.optimizer_updates ∧
    (loopStep cfg st raw).ema_updates = st.ema_updates ∧
    (loopStep cfg st raw).accumulate_cur_step = st.accumulate_cur_step + 1 := by
  unfold loopStep
  rw [if_neg hk]
  have hgf : (train_step cfg.fn (scaleNow cfg st) raw false).grads_finite = true := by
    rw [train_step_gf]; exact hb
  simp [accumBranch, hgf, hc]

theorem loopStep_adjust_calls (cfg : LoopCfg) (st : LoopState) (raw : List GVal)
    (s : LossScaler) (hs : st.scaler = some s) :
    (loopStep cfg st raw).adjust_calls = st.adjust_calls + 1 := by
  unfold loopStep
  by_cases h1 : cfg.accumulate = 1
  · rw [if_pos h1]
    cases hgf : (train_step cfg.fn (scaleNow cfg st) raw true).grads_finite <;>
      simp [hgf, adjustScaler_adjust_calls, hs]
  · rw [if_neg h1]
    have hcalls :
        ∀ r : StepResult, (accumBranch cfg (adjustScaler st r.grads_finite) r).adjust_calls
          = (adjustScaler st r.grads_finite).adjust_calls := by
      intro r
      unfold accumBranch
      cases hgf : r.grads_finite <;> simp [hgf]
      split <;> rfl
    rw [hcalls]
    simp [adjustScaler_adjust_calls, hs]

/-! ### Counting updates over a whole accumulation run -/

theorem accumRun (cfg : LoopCfg) (hk : 2 ≤ cfg.accumulate) :
    ∀ (batches : List (List GVal)) (st : LoopState),
      st.accumulate_cur_step < cfg.accumulate →
      (runLoop cfg st batches).optimizer_updates
          = st.optimizer_updates
              + (st.accumulate_cur_step + finiteCount cfg batches) / cfg.accumulate ∧
      (runLoop cfg st batches).ema_updates
          = st.ema_updates
              + (if cfg.ema then
                  (st.accumulate_cur_step + finiteCount cfg batches) / cfg.accumulate
                 else 0) ∧
      (runLoop cfg st batches).accumulate_cur_step
          = (st.accumulate_cur_step + finiteCount cfg batches) % cfg.accumulate := by
  have hk1 : cfg.accumulate ≠ 1 := by omega
  have hk0 : 0 < cfg.accumulate := by omega
  intro batches
  induction batches with
  | nil =>
    intro st hc
    refine ⟨?_, ?_, ?_⟩ <;>
      simp [runLoop, finiteCount, Nat.div_eq_of_lt hc, Nat.mod_eq_of_lt hc]
  | cons b bs ih =>
    intro st hc
    have hfold : runLoop cfg st (b :: bs) = runLoop cfg (loopStep cfg st b) bs := rfl
    cases hb : batchFinite cfg b
    · have hcount : finiteCount cfg (b :: bs) = finiteCount cfg bs := by
        simp [finiteCount, List.countP_cons, hb]
      have hstep := loopStep_acc_nonfinite cfg st b hk1 hb
      have ih2 := ih (loopStep cfg st b) (by rw [hstep.2.2.1]; exact hc)
      rw [hfold, hcount]
      rw [hstep.1, hstep.2.1, hstep.2.2.1] at ih2
      exact ih2
    · have hcount : finiteCount cfg (b :: bs) = finiteCount cfg bs + 1 := by
        simp [finiteCount, List.countP_cons, hb]
      by_cases hfire : (st.accumulate_cur_step + 1) % cfg.accumulate = 0
      · have heq : st.accumulate_cur_step + 1 = cfg.accumulate := by
          have hdvd := Nat.dvd_of_mod_eq_zero hfire
          have hle := Nat.le_of_dvd (Nat.succ_pos _) hdvd
          omega
        have hstep := loopStep_acc_finite_fire cfg st b hk1 hb hfire
        have ih2 := ih (loopStep cfg st b) (by rw [hstep.2.2.1]; exact hk0)
        rw [hstep.1, hstep.2.1, hstep.2.2.1] at ih2
        simp only [Nat.zero_add] at ih2
        have harith : st.accumulate_cur_step + (finiteCount cfg bs + 1)
            = finiteCount cfg bs + cfg.accumulate := by omega
        rw [hfold, hcount, harith, Nat.add_div_right _ hk0, Nat.add_mod_right]
        rw [ih2.1, ih2.2.1, ih2.2.2]
        refine ⟨by ring, ?_, rfl⟩
        cases hema : cfg.ema <;> simp <;> ring
      · have hlt : st.accumulate_cur_step + 1 < cfg.accumulate := by
          rcases Nat.lt_or_ge (st.accumulate_cur_step + 1) cfg.accumulate with h | h
          · exact h
          · exfalso
            have : st.accumulate_cur_step + 1 = cfg.accumulate := by omega
            rw [this, Nat.mod_self] at hfire
            exact hfire rfl
        have hstep := loopStep_acc_finite_nofire cfg st b hk1 hb hfire
        have ih2 := ih (loopStep cfg st b) (by rw [hstep.2.2]; exact hlt)
        rw [hstep.1, hstep.2.1, hstep.2.2] at ih2
        have harith : st.accumulate_cur_step + 1 + finiteCount cfg bs
            = st.accumulate_cur_step + (finiteCount cfg bs + 1) := by omega
        rw [harith] at ih2
        rw [hfold, hcount]
        exact ih2

/-! ### Dynamic loss-scale lemmas -/

theorem adjust_scale_factor (s : DynamicLossScaler) (gf : Bool) :
    (s.adjust gf).scale_factor = s.scale_factor := by
  unfold DynamicLossScaler.adjust
  split_ifs <;> rfl

theorem adjustRep_counter (s : DynamicLossScaler) :
    ∀ m, s.counter + m < s.scale_window →
      adjustRep s m = { s with counter := s.counter + m } := by
  intro m
  induction m with
  | zero => intro _; rfl
  | succ n ih =>
    intro h
    have hn : s.counter + n < s.scale_window := by omega
    rw [adjustRep, ih hn]
    unfold DynamicLossScaler.adjust
    rw [if_pos rfl, if_neg (by simp; omega)]
    simp [Nat.add_assoc]

theorem adjustRep_window (s : DynamicLossScaler) (h0 : s.counter = 0)
    (hW : 0 < s.scale_window) :
    adjustRep s s.scale_window
      = { s with scale_value := s.scale_value * s.scale_factor, counter := 0 } := by
  obtain ⟨W, hW'⟩ : ∃ W, s.scale_window = W + 1 := ⟨s.scale_window - 1, by omega⟩
  rw [hW', adjustRep]
  rw [adjustRep_counter s W (by omega)]
  unfold DynamicLossScaler.adjust
  rw [if_pos rfl, if_pos (by simp [h0, hW'])]
  simp [hW']

theorem adjust_scale_ge_one (s : DynamicLossScaler)
    (h1 : 1 ≤ s.scale_value) (h2 : 1 ≤ s.scale_factor) (gf : Bool) :
    1 ≤ (s.adjust gf).scale_value := by
  unfold DynamicLossScaler.adjust
  split_ifs
  · exact le_trans h1 (le_mul_of_one_le_right (le_trans zero_le_one h1) h2)
  · exact h1
  · exact le_max_left 1 _

theorem foldl_adjust_ge_one :
    ∀ (flags : List Bool) (s : DynamicLossScaler),
      1 ≤ s.scale_value → 1 ≤ s.scale_factor →
      1 ≤ (flags.foldl DynamicLossScaler.adjust s).scale_value := by
  intro flags
  induction flags with
  | nil => intro s h1 _; exact h1
  | cons f fs ih =>
    intro s h1 h2
    rw [List.foldl_cons]
    exact ih (s.adjust f) (adjust_scale_ge_one s h1 h2 f)
      (by rw [adjust_scale_factor]; exact h2)

/-! ### StaticCell assertion lemmas -/

theorem staticCellSim_fail (total W : ℕ) :
    ∀ (fuel acc i j : ℕ),
      (staticCellSim total W acc i fuel).failed_at = some j →
      i ≤ j ∧ (staticCellSim total W acc i fuel).executed_steps = j - i := by
  intro fuel
  induction fuel with
  | zero =>
    intro acc i j h
    exact absurd h (by simp [staticCellSim])
  | succ n ih =>
    intro acc i j h
    by_cases hacc : (if i < W then warmupAccumulate i W total else acc) = 1
    · have hun : staticCellSim total W acc i (n + 1)
          = { executed_steps :=
                (staticCellSim total W (if i < W then warmupAccumulate i W total else acc)
                  (i + 1) n).executed_steps + 1
              failed_at :=
                (staticCellSim total W (if i < W then warmupAccumulate i W total else acc)
                  (i + 1) n).failed_at } := by
        rw [staticCellSim]
        rw [if_pos hacc]
      rw [hun] at h ⊢
      have ih2 := ih _ (i + 1) j h
      refine ⟨by omega, by simp; omega⟩
    · have hun : staticCellSim total W acc i (n + 1)
          = { executed_steps := 0, failed_at := some i } := by
        rw [staticCellSim]
        rw [if_neg hacc]
      rw [hun] at h ⊢
      have : i = j := by simpa using h
      subst this
      exact ⟨le_refl i, by simp⟩

/-! ### Claim theorems -/

/-- C5: in every `train_step` call the gradients are first passed through
the distributed gradient reducer, then divided by the current loss-scale
value, and the finiteness flag is computed from exactly those unscaled
gradients (train.py lines 384-387); unscaling divides every component by
the scale and preserves the finiteness flags. -/
theorem grad_pipeline_reduce_unscale_check :
    ∀ (fn : StepFn) (scale : ℚ) (raw : List GVal) (u : Bool),
      (train_step fn scale raw u).grads = unscale scale (fn.reducer raw) ∧
      (train_step fn scale raw u).grads_finite
        = all_finite ((train_step fn scale raw u).grads) ∧
      (∀ (c : ℚ) (gs : List GVal), all_finite (unscale c gs) = all_finite gs) ∧
      (∀ (c : ℚ) (gs : List GVal),
          (unscale c gs).map GVal.val = gs.map fun g => g.val / c) :=
  fun _fn _scale _raw _u =>
    ⟨rfl, rfl, fun c gs => all_finite_unscale c gs, fun _c gs => by simp [unscale]⟩

/-- C7: whenever a loop iteration of the accumulation path applies an
optimizer update, the gradient-sum buffer is reset to empty and the
accumulation counter is reset to zero (train.py lines 253-260). -/
theorem accumulation_reset_after_update :
    ∀ (cfg : LoopCfg) (st : LoopState) (raw : List GVal),
      cfg.accumulate ≠ 1 →
      (loopStep cfg st raw).optimizer_updates ≠ st.optimizer_updates →
      (loopStep cfg st raw).accumulate_grads = none ∧
      (loopStep cfg st raw).accumulate_cur_step = 0 := by
  intro cfg st raw hk hupd
  cases hb : batchFinite cfg raw
  · exact absurd (loopStep_acc_nonfinite cfg st raw hk hb).1 hupd
  · by_cases hfire : (st.accumulate_cur_step + 1) % cfg.accumulate = 0
    · have h := loopStep_acc_finite_fire cfg st raw hk hb hfire
      exact ⟨h.2.2.2, h.2.2.1⟩
    · exact absurd (loopStep_acc_finite_nofire cfg st raw hk hb hfire).1 hupd

/-- Witness for C7 at a concrete state: with accumulation target 4 and the
counter at 3, a finite micro-batch fires an update and leaves an empty
buffer and a zero counter. -/
theorem accumulation_reset_after_update_witness :
    (loopStep cfg4 st3 goodBatch).optimizer_updates ≠ st3.optimizer_updates ∧
    (loopStep cfg4 st3 goodBatch).accumulate_grads = none ∧
    (loopStep cfg4 st3 goodBatch).accumulate_cur_step = 0 := by
  have hupd : (loopStep cfg4 st3 goodBatch).optimizer_updates
      ≠ st3.optimizer_updates := by decide
  have h := accumulation_reset_after_update cfg4 st3 goodBatch (by decide) hupd
  exact ⟨hupd, h.1, h.2⟩

/-- C2: with accumulation target `k ≥ 2`, a run starting from a zero
counter applies exactly one optimizer update, each followed by one EMA
update, per `k` finite micro-batches (`finiteCount / k` updates in total);
a non-finite micro-batch leaves the gradient sum, the accumulation counter
and the optimizer-update count unchanged, and appends the current
(post-adjust) loss-scale value to the log (train.py lines 240-266). -/
theorem accumulation_window_updates :
    ∀ cfg : LoopCfg, 2 ≤ cfg.accumulate →
      (∀ (batches : List (List GVal)) (st : LoopState),
          st.accumulate_cur_step = 0 →
          (runLoop cfg st batches).optimizer_updates
              = st.optimizer_updates + finiteCount cfg batches / cfg.accumulate ∧
          (runLoop cfg st batches).ema_updates
              = st.ema_updates
                  + (if cfg.ema then finiteCount cfg batches / cfg.accumulate else 0)) ∧
      (∀ (st : LoopState) (raw : List GVal),
          batchFinite cfg raw = false →
          (loopStep cfg st raw).accumulate_grads = st.accumulate_grads ∧
          (loopStep cfg st raw).accumulate_cur_step = st.accumulate_cur_step ∧
          (loopStep cfg st raw).optimizer_updates = st.optimizer_updates ∧
          ∀ s : LossScaler, st.scaler = some s →
            (loopStep cfg st raw).overflow_scale_logs
              = st.overflow_scale_logs ++ [(s.adjust false).scale_value]) := by
  intro cfg hk
  constructor
  · intro batches st h0
    have h := accumRun cfg hk batches st (by rw [h0]; omega)
    rw [h0] at h
    refine ⟨?_, ?_⟩
    · simpa using h.1
    · simpa using h.2.1
  · intro st raw hb
    have hk1 : cfg.accumulate ≠ 1 := by omega
    have h := loopStep_acc_nonfinite cfg st raw hk1 hb
    exact ⟨h.2.2.2, h.2.2.1, h.1,
      fun s hs => loopStep_acc_nonfinite_logs cfg st raw s hk1 hb hs⟩

/-- Witness for C2: eight finite micro-batches under accumulation target 4
give exactly two optimizer updates and two EMA updates (the spec's
scenario), and a concrete dropped micro-batch leaves the counter at zero
and logs the adjusted scale. -/
theorem accumulation_window_updates_witness :
    (runLoop cfg4 st0 batches8).optimizer_updates = 2 ∧
    (runLoop cfg4 st0 batches8).ema_updates = 2 ∧
    (loopStep cfg4 st0 badBatch).accumulate_cur_step = 0 ∧
    (loopStep cfg4 st0 badBatch).overflow_scale_logs
      = st0.overflow_scale_logs
          ++ [((LossScaler.dynamic initDynamicLossScaler).adjust false).scale_value] := by
  have h := accumulation_window_updates cfg4 (by decide)
  have h1 := h.1 batches8 st0 rfl
  have h2 := h.2 st0 badBatch (by decide)
  exact ⟨h1.1.trans (by decide), h1.2.trans (by decide),
    h2.2.1.trans rfl, h2.2.2.2 (.dynamic initDynamicLossScaler) rfl⟩

/-- C9: when a supplied EMA checkpoint lacks the `"updates"` entry, loading
is non-fatal: the shadow weights are taken from the checkpoint, the EMA
update counter keeps its prior value, the miss message is printed and the
success message is still reached (train.py lines 76-83). -/
theorem ema_checkpoint_missing_updates_nonfatal :
    ∀ (ema : EmaState) (ckpt : List (String × ℚ)),
      ckptLookup "updates" ckpt = none →
      (loadEmaCheckpoint ema ckpt).ema.updates = ema.updates ∧
      (loadEmaCheckpoint ema ckpt).ema.weights = load_param_into_net ema.weights ckpt ∧
      (loadEmaCheckpoint ema ckpt).printed_updates_missing = true ∧
      (loadEmaCheckpoint ema ckpt).printed_success = true := by
  intro ema ckpt h
  simp [loadEmaCheckpoint, h]

/-- Witness for C9 at a concrete checkpoint without an `"updates"` key. -/
theorem ema_checkpoint_missing_updates_nonfatal_witness :
    ckptLookup "updates" demoCkpt = none ∧
    (loadEmaCheckpoint demoEma demoCkpt).ema.updates = demoEma.updates ∧
    (loadEmaCheckpoint demoEma demoCkpt).printed_updates_missing = true ∧
    (loadEmaCheckpoint demoEma demoCkpt).printed_success = true := by
  have hmiss : ckptLookup "updates" demoCkpt = none := by decide
  have h := ema_checkpoint_missing_updates_nonfatal demoEma demoCkpt hmiss
  exact ⟨hmiss, h.1, h.2.2.1, h.2.2.2⟩

/-- C10: `train` seeds the numpy, python and framework generators with the
constant 2 through its argument-less `set_seed()` call (train.py lines
23-30) — the seed is not configurable — and the multi-scale size sequence
of a run depends only on the RNG, the image size, the grid size and the
step count, so two runs over identical inputs draw identical sizes even if
unrelated configuration differs. -/
theorem fixed_seed_determinism :
    train_set_seed = { np := 2, py := 2, msf := 2 } ∧
    (∀ s : ℕ, set_seed s = { np := s, py := s, msf := s }) ∧
    (∀ (rng : ℕ → ℕ → ℕ → ℕ × ℕ) (o1 o2 : Opt) (gs steps : ℕ),
        o1.imgsz = o2.imgsz →
        trainSizes rng o1 gs steps = trainSizes rng o2 gs steps) := by
  refine ⟨rfl, fun _s => rfl, ?_⟩
  intro rng o1 o2 gs steps h
  simp [trainSizes, h]

/-- Witness for C10: two runs whose configurations differ in an unrelated
flag draw the same multi-scale sizes. -/
theorem fixed_seed_determinism_witness :
    trainSizes demoRng optSingle 32 3 = trainSizes demoRng optSingleVariant 32 3 :=
  fixed_seed_determinism.2.2 demoRng optSingle optSingleVariant 32 3 rfl

/-- C1 counterexample: in the default (StaticShape) path with accumulation
target 1, a dropped non-finite micro-batch triggers no optimizer update,
yet the EMA update count still increments (train.py lines 232-239 run
`ema.update()` unconditionally), refuting the claim that the EMA tracker
is never updated on a dropped micro-batch. -/
theorem ema_updated_on_dropped_microbatch_cex :
    cfg1.accumulate = 1 ∧ cfg1.ema = true ∧
    cfg1.fn.overflow_still_update = false ∧
    batchFinite cfg1 badBatch = false ∧
    (loopStep cfg1 st0 badBatch).optimizer_updates = st0.optimizer_updates ∧
    (loopStep cfg1 st0 badBatch).ema_updates = st0.ema_updates + 1 := by
  refine ⟨rfl, rfl, rfl, by decide, by decide, by decide⟩

/-- C1 (amended): with accumulation target 1 in the StaticShape path, a
finite micro-batch produces exactly one optimizer update, and the EMA
update occurs on every micro-batch regardless of finiteness — including
dropped ones, which produce no optimizer update when
`overflow_still_update` is unset; only the StaticCell path skips the EMA
update on an overflowed step (train.py lines 223-239). -/
theorem accumulate_one_update_behavior :
    (∀ (cfg : LoopCfg) (st : LoopState) (raw : List GVal),
        cfg.accumulate = 1 →
        (loopStep cfg st raw).ema_updates
            = st.ema_updates + (if cfg.ema then 1 else 0) ∧
        (batchFinite cfg raw = true →
          (loopStep cfg st raw).optimizer_updates = st.optimizer_updates + 1) ∧
        (batchFinite cfg raw = false → cfg.fn.overflow_still_update = false →
          (loopStep cfg st raw).optimizer_updates = st.optimizer_updates)) ∧
    (∀ (use_ema : Bool) (n : ℕ), staticCellLoopStep use_ema n true = n) ∧
    (∀ n : ℕ, staticCellLoopStep true n false = n + 1) := by
  refine ⟨?_, fun use_ema n => rfl, fun n => rfl⟩
  intro cfg st raw h1
  refine ⟨loopStep_one_ema cfg st raw h1, ?_, ?_⟩
  · intro hb
    rw [loopStep_one_opt cfg st raw h1, hb]
    simp
  · intro hb hosu
    rw [loopStep_one_opt cfg st raw h1, hb, hosu]
    simp

/-- Witness for C1 (amended) at concrete micro-batches. -/
theorem accumulate_one_update_behavior_witness :
    (loopStep cfg1 st0 goodBatch).optimizer_updates = st0.optimizer_updates + 1 ∧
    (loopStep cfg1 st0 badBatch).ema_updates = st0.ema_updates + 1 ∧
    (loopStep cfg1 st0 badBatch).optimizer_updates = st0.optimizer_updates ∧
    staticCellLoopStep true 5 true = 5 ∧
    staticCellLoopStep true 5 false = 6 := by
  have h := accumulate_one_update_behavior
  have hgood := h.1 cfg1 st0 goodBatch rfl
  have hbad := h.1 cfg1 st0 badBatch rfl
  exact ⟨hgood.2.1 (by decide), hbad.1.trans (by decide),
    hbad.2.2 (by decide) rfl, h.2.1 true 5, h.2.2 5⟩

/-- C3 counterexample: in a single-worker configuration
(`opt.rank_size = 1`) the composite loss is still multiplied by 8 — the
default of the builder's `rank_size` parameter, which the call at train.py
lines 179-182 never passes — not by the worker count 1. -/
theorem loss_scale_not_worker_count_cex :
    optSingle.rank_size = 1 ∧
    (buildTrainStepFn optSingle none none).rank_size = 8 ∧
    (buildTrainStepFn optSingle none none).forwardLoss 1 = 8 ∧
    ((buildTrainStepFn optSingle none none).rank_size : ℚ)
      ≠ (optSingle.rank_size : ℚ) := by
  refine ⟨rfl, rfl, one_mul 8, ?_⟩
  show (8 : ℚ) ≠ ((1 : ℕ) : ℚ)
  norm_num

/-- C3 (amended): in every configuration, the loss multiplier applied
inside `forward_func` before differentiation is the constant 8 — the
Python default of the `rank_size` parameter of
`create_train_static_shape_fn_gradoperation`, which the training setup
never overrides — independent of `opt.rank_size`. -/
theorem loss_scaled_by_default_rank_size :
    ∀ (opt : Opt) (ls : Option LossScaler) (gr : Option (List GVal → List GVal)),
      (buildTrainStepFn opt ls gr).rank_size = 8 ∧
      ∀ L : ℚ, (buildTrainStepFn opt ls gr).forwardLoss L = L * 8 :=
  fun _opt _ls _gr => ⟨rfl, fun _L => rfl⟩

/-- C4 counterexample: with `overflow_still_update` set and accumulation
target 2, a non-finite micro-batch still produces no optimizer update —
the flag does not bypass the drop behaviour of the accumulation path
(train.py lines 240-266 call `train_step` with `optimizer_update=False`
and never consult the flag). -/
theorem overflow_still_update_accumulation_cex :
    cfgAcc2osu.fn.overflow_still_update = true ∧
    cfgAcc2osu.accumulate = 2 ∧
    batchFinite cfgAcc2osu badBatch = false ∧
    st0.optimizer_updates = 0 ∧
    (loopStep cfgAcc2osu st0 badBatch).optimizer_updates = 0 := by
  refine ⟨rfl, rfl, by decide, rfl, by decide⟩

/-- C4 (amended): on a non-finite micro-batch, the `overflow_still_update`
flag controls the optimizer only in the immediate-update path
(`train_step` with `optimizer_update=True`, used when the accumulation
target is 1): the update is applied iff the flag is set, and an overflow
warning is printed either way; in the accumulation path a non-finite
micro-batch never triggers an optimizer update, whatever the flag
(train.py lines 240-266, 389-397). -/
theorem overflow_still_update_scope :
    (∀ (fn : StepFn) (scale : ℚ) (raw : List GVal),
        all_finite (fn.reducer raw) = false →
        (train_step fn scale raw true).optimizer_applied = fn.overflow_still_update ∧
        (train_step fn scale raw true).overflow_warned = true) ∧
    (∀ (cfg : LoopCfg) (st : LoopState) (raw : List GVal),
        cfg.accumulate ≠ 1 → batchFinite cfg raw = false →
        (loopStep cfg st raw).optimizer_updates = st.optimizer_updates) := by
  constructor
  · intro fn scale raw hb
    rw [train_step_applied, train_step_warned, hb]
    simp
  · intro cfg st raw hk hb
    exact (loopStep_acc_nonfinite cfg st raw hk hb).1

/-- Witness for C4 (amended) at a concrete non-finite micro-batch with the
flag set. -/
theorem overflow_still_update_scope_witness :
    (train_step cfgAcc2osu.fn 1 badBatch true).optimizer_applied = true ∧
    (train_step cfgAcc2osu.fn 1 badBatch true).overflow_warned = true ∧
    (loopStep cfgAcc2osu st0 badBatch).optimizer_updates = st0.optimizer_updates := by
  have h := overflow_still_update_scope
  have h1 := h.1 cfgAcc2osu.fn 1 badBatch (by decide)
  exact ⟨h1.1.trans (by decide), h1.2,
    h.2 cfgAcc2osu st0 badBatch (by decide) (by decide)⟩

/-- C6: the dynamic loss scaler starts at the power of two `2 ^ 12` with
factor 2 and window 1000 (train.py line 169); every loop iteration with a
scaler present adjusts it exactly once (train.py lines 237, 243); from a
zero counter the scale is unchanged by fewer than `scale_window`
consecutive finite steps and is multiplied by the factor after exactly
`scale_window` of them; a non-finite step immediately divides the scale by
the factor (clamped at the floor 1) and resets the counter; and under any
adjustment sequence the scale never drops below 1. -/
theorem dynamic_loss_scaler_behavior :
    initDynamicLossScaler.scale_value = 2 ^ 12 ∧
    initDynamicLossScaler.scale_factor = 2 ∧
    initDynamicLossScaler.scale_window = 1000 ∧
    initDynamicLossScaler.counter = 0 ∧
    (∀ (cfg : LoopCfg) (st : LoopState) (raw : List GVal) (s : LossScaler),
        st.scaler = some s →
        (loopStep cfg st raw).adjust_calls = st.adjust_calls + 1) ∧
    (∀ s : DynamicLossScaler, s.counter = 0 → 0 < s.scale_window →
        (∀ m, m < s.scale_window → (adjustRep s m).scale_value = s.scale_value) ∧
        (adjustRep s s.scale_window).scale_value
          = s.scale_value * s.scale_factor) ∧
    (∀ s : DynamicLossScaler,
        (s.adjust false).scale_value = max 1 (s.scale_value / s.scale_factor) ∧
        (s.adjust false).counter = 0) ∧
    (∀ (flags : List Bool) (s : DynamicLossScaler),
        1 ≤ s.scale_value → 1 ≤ s.scale_factor →
        1 ≤ (flags.foldl DynamicLossScaler.adjust s).scale_value) := by
  refine ⟨rfl, rfl, rfl, rfl, ?_, ?_, ?_, foldl_adjust_ge_one⟩
  · intro cfg st raw s hs
    exact loopStep_adjust_calls cfg st raw s hs
  · intro s h0 hW
    constructor
    · intro m hm
      rw [adjustRep_counter s m (by omega)]
    · rw [adjustRep_window s h0 hW]
  · intro s
    constructor <;>
      · unfold DynamicLossScaler.adjust
        simp

/-- Witness for C6: the concrete scaler of train.py line 169 is unchanged
by 999 finite adjusts, doubles at the 1000th, stays at or above the floor
after a non-finite adjust, and a concrete loop iteration adjusts the
scaler exactly once. -/
theorem dynamic_loss_scaler_behavior_witness :
    (adjustRep initDynamicLossScaler 999).scale_value
        = initDynamicLossScaler.scale_value ∧
    (adjustRep initDynamicLossScaler 1000).scale_value
        = initDynamicLossScaler.scale_value * initDynamicLossScaler.scale_factor ∧
    1 ≤ (([false] : List Bool).foldl DynamicLossScaler.adjust
          initDynamicLossScaler).scale_value ∧
    (loopStep cfg1 st0 goodBatch).adjust_calls = st0.adjust_calls + 1 := by
  have h := dynamic_loss_scaler_behavior
  have hd := h.2.2.2.2.2.1 initDynamicLossScaler rfl (by decide)
  refine ⟨hd.1 999 (by decide), hd.2, ?_, ?_⟩
  · exact h.2.2.2.2.2.2.2 [false] initDynamicLossScaler (by decide) (by decide)
  · exact h.2.2.2.2.1 cfg1 st0 goodBatch (.dynamic initDynamicLossScaler) rfl

/-- C8 counterexample: with total batch size 32 (so the setup-time
accumulation target is 2 > 1) and two warmup steps, the StaticCell run is
aborted by the in-loop `assert accumulate == 1` only at micro-batch index
1 — after one training step has already executed during warmup — so the
rejection of accumulation target > 1 with StaticCell is not raised at
setup before any training step. -/
theorem staticcell_accumulate_assert_cex :
    initAccumulate 32 = 2 ∧
    (runStaticCell 32 2 10).failed_at = some 1 ∧
    (runStaticCell 32 2 10).executed_steps = 1 := by
  refine ⟨by decide, by decide, by decide⟩

/-- C8 (amended): the unimplemented-optimizer and unimplemented-strategy
configurations are rejected by `NotImplementedError` at setup, before the
training loop (train.py lines 129-141, 183-184); the accumulation-target
check for StaticCell is instead an assertion inside the loop body
(train.py lines 219-220): whenever it aborts the run at micro-batch `j`
having started at micro-batch `i`, exactly `j - i` training steps have
already executed — so during warmup ramping the error can arrive after
training steps have run. -/
theorem setup_rejections_and_inloop_assert :
    buildOptimizer "thor" = Except.error "NotImplementedError" ∧
    (∀ name : String, name ≠ "sgd" → name ≠ "momentum" → name ≠ "adam" →
        buildOptimizer name = Except.error "NotImplementedError") ∧
    (∀ strat : String, strat ≠ "StaticCell" → strat ≠ "StaticShape" →
        buildTrainFn strat = Except.error "NotImplementedError") ∧
    (∀ total W acc i fuel j : ℕ,
        (staticCellSim total W acc i fuel).failed_at = some j →
        i ≤ j ∧ (staticCellSim total W acc i fuel).executed_steps = j - i) := by
  refine ⟨rfl, ?_, ?_, ?_⟩
  · intro name h1 h2 h3
    simp [buildOptimizer, h1, h2, h3]
  · intro strat h1 h2
    simp [buildTrainFn, h1, h2]
  · intro total W acc i fuel j h
    exact staticCellSim_fail total W fuel acc i j h

/-- Witness for C8 (amended): an unknown optimizer name is rejected, and
the concrete aborted StaticCell run of the counterexample configuration
has executed exactly `j - i` training steps. -/
theorem setup_rejections_and_inloop_assert_witness :
    buildOptimizer "lamb" = Except.error "NotImplementedError" ∧
    buildTrainFn "DynamicShape" = Except.error "NotImplementedError" ∧
    (0 ≤ 1 ∧ (staticCellSim 32 2 2 0 10).executed_steps = 1 - 0) := by
  have h := setup_rejections_and_inloop_assert
  have hfail : (staticCellSim 32 2 2 0 10).failed_at = some 1 := by decide
  exact ⟨h.2.1 "lamb" (by decide) (by decide) (by decide),
    h.2.2.1 "DynamicShape" (by decide) (by decide),
    h.2.2.2 32 2 2 0 10 1 hfail⟩

end YoloTrain
